import Mathlib

/-!
Verification development for the memory-x medical memory platform.

The repository ships the frontend (React/TypeScript) and documentation; the
reconciliation core (entry normalizer, interval reasoner, confidence scorer,
decision engine, bitemporal fact ledger) lives in backend modules referenced
by the docs (`src/core/merge_confidence.py` and the medical memory module) but
not present in this source snapshot.  Those components are modelled from the
specification; the frontend components (`MedicalDecision.tsx`,
`services/api.ts`, `types/memory.ts`) are embedded from their TypeScript
source.
-/

namespace MemoryX

/-- The three terminal classifications of the decision engine, mirroring the
`action` field of `MedicalDecisionResponse` in the frontend type definitions
(`'MERGE' | 'UPDATE' | 'APPEND'`). -/
inductive Action where
  | APPEND
  | UPDATE
  | MERGE
  deriving DecidableEq, Repr

/-- Clinical domain of an entry (medication or symptom). -/
inductive Domain where
  | medication
  | symptom
  deriving DecidableEq, Repr

/-- Modelled from the spec: the normalized clinical entry produced by the
Entry Normalizer (the backend normalizer is not in this snapshot).
`subject_code` is the stable identifier (drug/symptom code), `attributes` the
ordered mapping of domain fields to canonical values, `interval_start` a
required timestamp (in days), `interval_end` optional (absent = ongoing). -/
structure NormalizedEntry where
  subject_code : String
  attributes : List (String × String)
  interval_start : Int
  interval_end : Option Int
  deriving DecidableEq, Repr

/-- Modelled from the spec: a raw incoming entry before validation; required
fields are optional here because the normalizer must reject their absence. -/
structure RawEntry where
  subject_code : Option String
  attributes : List (String × String)
  interval_start : Option Int
  interval_end : Option Int
  deriving DecidableEq, Repr

/-- Modelled from the spec: `ValidationError\x7b field, reason \x7d`. -/
structure ValidationError where
  field : String
  reason : String
  deriving DecidableEq, Repr

/-- Modelled from the spec: `normalize(entry) -> NormalizedEntry | ValidationError`
(the backend normalizer is not in this snapshot).  Required fields
(`subject_code`, `interval_start`) must be present; `interval_end`, when
present, must not precede `interval_start`.  Attribute values are carried
through as opaque canonical strings; unknown or extra attributes are never
rejected (forward compatible). -/
def normalize (e : RawEntry) : Except ValidationError NormalizedEntry :=
  match e.subject_code with
  | none => .error ⟨"subject_code", "missing required field"⟩
  | some code =>
    match e.interval_start with
    | none => .error ⟨"interval_start", "missing required field"⟩
    | some s =>
      match e.interval_end with
      | some en =>
        if en < s then .error ⟨"interval_end", "interval_end precedes interval_start"⟩
        else .ok ⟨code, e.attributes, s, some en⟩
      | none => .ok ⟨code, e.attributes, s, none⟩

/-- Modelled from the spec: temporal relationship between two entry intervals,
`Overlap(days)` or `Gap(days)` (a fully open overlap carries no finite
magnitude, hence `Option Nat`). -/
inductive TemporalRelation where
  | overlap (days : Option Nat)
  | gap (days : Nat)
  deriving DecidableEq, Repr

/-- Modelled from the spec: overlap test `a.start ≤ b.end ∧ b.start ≤ a.end`,
with an open-ended `end` treated as +∞. -/
def overlaps (a b : NormalizedEntry) : Bool :=
  (match b.interval_end with
   | none => true
   | some be => a.interval_start ≤ be) &&
  (match a.interval_end with
   | none => true
   | some ae => b.interval_start ≤ ae)

/-- Modelled from the spec: days of intersection of the two intervals
(`none` when both ends are open and the overlap is unbounded). -/
def overlapDays (a b : NormalizedEntry) : Option Nat :=
  match a.interval_end, b.interval_end with
  | none, none => none
  | some ae, none => some (ae - max a.interval_start b.interval_start).toNat
  | none, some be => some (be - max a.interval_start b.interval_start).toNat
  | some ae, some be => some (min ae be - max a.interval_start b.interval_start).toNat

/-- Modelled from the spec: when disjoint, the gap is the days between the
nearer endpoints, `min (b.start - a.end) (a.start - b.end)` over the
differences that are defined and positive. -/
def gapDays (a b : NormalizedEntry) : Nat :=
  let d1 : Option Nat := a.interval_end.bind fun ae =>
    if ae < b.interval_start then some (b.interval_start - ae).toNat else none
  let d2 : Option Nat := b.interval_end.bind fun be =>
    if be < a.interval_start then some (a.interval_start - be).toNat else none
  match d1, d2 with
  | some x, some y => min x y
  | some x, none => x
  | none, some y => y
  | none, none => 0

/-- Modelled from the spec: the approximate-time tolerance window (domain
default: 1 day for medication; symptoms share the default here, the widening
being at the caller's discretion). -/
def toleranceDays (d : Domain) : Nat :=
  match d with
  | .medication => 1
  | .symptom => 1

/-- Modelled from the spec: the Interval Reasoner.
`relate(a, b, approximate)` yields an overlap or a gap; with
`approximate = true`, gaps within the tolerance window count as zero-gap
overlap for scoring purposes. -/
def relate (a b : NormalizedEntry) (d : Domain) (approximate : Bool) : TemporalRelation :=
  if overlaps a b then .overlap (overlapDays a b)
  else
    let g := gapDays a b
    if approximate && g ≤ toleranceDays d then .overlap (some 0)
    else .gap g

/-- Modelled from the spec: the domain ceiling for temporal decay
(medication: 3 days nominal; symptom: 14 days). -/
def gapCeiling (d : Domain) : Nat :=
  match d with
  | .medication => 3
  | .symptom => 14

/-- Modelled from the spec: temporal proximity term — 1.0 for overlap,
decaying linearly to 0 as the gap grows toward the domain ceiling. -/
def temporalProximity (r : TemporalRelation) (d : Domain) : ℚ :=
  match r with
  | .overlap _ => 1
  | .gap g => max 0 (1 - (g : ℚ) / (gapCeiling d : ℚ))

/-- Modelled from the spec: attribute value lookup in the ordered mapping. -/
def lookupAttr (attrs : List (String × String)) (k : String) : Option String :=
  (attrs.find? fun p => p.1 == k).map fun p => p.2

/-- Modelled from the spec: attribute similarity — the fraction of comparable
attributes (those present in both entries) whose canonical values match
exactly; 0 when no attribute is comparable. -/
def attrSim (a b : NormalizedEntry) : ℚ :=
  let comparable := a.attributes.filter fun p => (lookupAttr b.attributes p.1).isSome
  if comparable.length = 0 then 0
  else (comparable.countP fun p => lookupAttr b.attributes p.1 == some p.2) / (comparable.length : ℚ)

/-- Modelled from the spec: the Confidence Scorer's weighted sum
(identity 0.4, attribute similarity 0.3, temporal proximity 0.3), clamped to
[0, 1]. -/
def weightedScore (a b : NormalizedEntry) (d : Domain) (approximate : Bool) : ℚ :=
  let identity : ℚ := if a.subject_code = b.subject_code then 1 else 0
  let s := (2 / 5 : ℚ) * identity + (3 / 10 : ℚ) * attrSim a b
    + (3 / 10 : ℚ) * temporalProximity (relate a b d approximate) d
  max 0 (min 1 s)

/-- Modelled from the spec: `score(current, new, relation, flags)` — the
clamped weighted sum, with identity mismatch forcing score = 0 irrespective
of other terms (hard gate, not merely a weighted term). -/
def score (a b : NormalizedEntry) (d : Domain) (approximate : Bool) : ℚ :=
  if a.subject_code = b.subject_code then weightedScore a b d approximate else 0

/-- Modelled from the spec: the domain/risk threshold table
`(t_update, t_merge)`: normal risk (0.5, 0.75), high risk raised to
(0.65, 0.85) for both medication and symptom. -/
def thresholds (d : Domain) (high_risk : Bool) : ℚ × ℚ :=
  match d, high_risk with
  | .medication, false => (1 / 2, 3 / 4)
  | .medication, true => (13 / 20, 17 / 20)
  | .symptom, false => (1 / 2, 3 / 4)
  | .symptom, true => (13 / 20, 17 / 20)

/-- The decision engine's response: a terminal classification and the
confidence, mirroring `MedicalDecisionResponse` (success, action, confidence). -/
structure DecideResponse where
  action : Action
  confidence : ℚ
  deriving DecidableEq, Repr

/-- Modelled from the spec: the Decision Engine over a single transition.
Identity mismatch short-circuits to APPEND with confidence 0; otherwise the
score is compared to the selected `(t_update, t_merge)` thresholds:
`score ≥ t_merge` → MERGE, `t_update ≤ score < t_merge` → UPDATE, otherwise
APPEND. -/
def decideEntry (current newEntry : NormalizedEntry) (d : Domain)
    (approximate high_risk : Bool) : DecideResponse :=
  if current.subject_code ≠ newEntry.subject_code then ⟨.APPEND, 0⟩
  else
    let s := score current newEntry d approximate
    let t := thresholds d high_risk
    if s ≥ t.2 then ⟨.MERGE, s⟩
    else if s ≥ t.1 then ⟨.UPDATE, s⟩
    else ⟨.APPEND, s⟩

/-- Modelled from the spec: a bitemporal fact ledger row.  `entity_key`
identifies the episode, `payload` is the normalized entry, `version_id` is
monotonically increasing per `entity_key`, `commit_ts` is the transaction
time assigned by the ledger at write time, `decision_kind` records the
classification that produced the version. -/
structure FactRecord where
  entity_key : String
  payload : NormalizedEntry
  version_id : Nat
  commit_ts : Int
  decision_kind : Action
  deriving DecidableEq, Repr

/-- The version chain of a fixed `entity_key` inside the append-only ledger
list, in commit order. -/
def chainOf (L : List FactRecord) (k : String) : List FactRecord :=
  L.filter fun r => r.entity_key == k

/-- The latest committed version for an `entity_key`, if any. -/
def lastFor (L : List FactRecord) (k : String) : Option FactRecord :=
  (chainOf L k).getLast?

/-- Modelled from the spec: `commit(entity_key, decision, normalized_entry)`.
The ledger is append-only; the new version's `version_id` is the successor of
the latest version's, `commit_ts` is assigned at write time and kept monotone
per `entity_key` (never below the latest version's `commit_ts`), and the
ledger deduplicates by content hash — a submission identical in
`(entity_key, normalized_entry)` to the latest version within the same
`commit_ts` resolution does not create a new version. -/
def commit (L : List FactRecord) (k : String) (e : NormalizedEntry)
    (kind : Action) (clock : Int) : List FactRecord :=
  match lastFor L k with
  | none => L ++ [⟨k, e, 0, clock, kind⟩]
  | some last =>
    let ts := max clock last.commit_ts
    if last.payload = e ∧ ts = last.commit_ts then L
    else L ++ [⟨k, e, last.version_id + 1, ts, kind⟩]

/-- The per-`entity_key` ledger invariant: along the version chain,
`version_id` is strictly increasing and `commit_ts` is non-decreasing. -/
def ChainOk (L : List FactRecord) (k : String) : Prop :=
  List.Chain' (fun a b => a.version_id < b.version_id ∧ a.commit_ts ≤ b.commit_ts)
    (chainOf L k)

instance (L : List FactRecord) (k : String) : Decidable (ChainOk L k) :=
  inferInstanceAs (Decidable (List.Chain' _ _))

/- ---------------------------------------------------------------------
Frontend embeddings (from the TypeScript source under src/frontend and the
unnamed parts holding services/api.ts and types/memory.ts).
--------------------------------------------------------------------- -/

/-- The decision result the frontend renders: `action` and `confidence` of
`MedicalDecisionResponse` (types/memory.ts). -/
structure UIDecisionResult where
  action : Action
  confidence : ℚ
  deriving DecidableEq, Repr

/-- From MedicalDecision.tsx line 386: the human-review warning Alert is
rendered exactly when `result.confidence < 0.6`. -/
def showReviewAdvisory (r : UIDecisionResult) : Bool :=
  r.confidence < 3 / 5

/-- From MedicalDecision.tsx line 351: the Chip labels the displayed action
with `result.action`; the advisory block never alters it. -/
def displayedAction (r : UIDecisionResult) : Action :=
  r.action

/-- From MedicalDecision.tsx lines 114–118 (`getConfidenceLevel`): the
three-level confidence badge (high ≥ 0.8, medium ≥ 0.6, low otherwise). -/
inductive ConfidenceLevel where
  | high
  | medium
  | low
  deriving DecidableEq, Repr

/-- From MedicalDecision.tsx `getConfidenceLevel`. -/
def getConfidenceLevel (confidence : ℚ) : ConfidenceLevel :=
  if confidence ≥ 4 / 5 then .high
  else if confidence ≥ 3 / 5 then .medium
  else .low

/-- The editable form state of MedicalDecision.tsx: every field is a string;
an empty `end` string means "no end date entered". -/
structure MedicalEntryForm where
  rxnorm : String
  dose : String
  frequency : String
  route : String
  start : String
  «end» : String
  provenance : String
  deriving DecidableEq, Repr

/-- The `MedicalEntry` of types/memory.ts as sent in the request body:
`start` required, `end` optional (absent, not empty). -/
structure RequestEntry where
  rxnorm : String
  dose : String
  frequency : String
  route : String
  start : String
  «end» : Option String
  provenance : String
  deriving DecidableEq, Repr

/-- From MedicalDecision.tsx `handleDecision` (lines 72–85): each form entry
is sent with `start` suffixed by `'T00:00:00Z'` and `end` mapped through the
JavaScript truthiness conditional `entry.end ? entry.end + 'T00:00:00Z' :
undefined` — an empty string becomes an absent field. -/
def buildRequestEntry (e : MedicalEntryForm) : RequestEntry :=
  { rxnorm := e.rxnorm
    dose := e.dose
    frequency := e.frequency
    route := e.route
    start := e.start ++ "T00:00:00Z"
    «end» := if e.«end» = "" then none else some (e.«end» ++ "T00:00:00Z")
    provenance := e.provenance }

/-- The `Memory` record of types/memory.ts (fields used by the search
responses). -/
structure Memory where
  id : Option String
  user_message : String
  ai_response : String
  timestamp : String
  importance : Nat
  deriving DecidableEq, Repr

/-- The `SearchMemoryResponse` of types/memory.ts. -/
structure SearchMemoryResponse where
  success : Bool
  user_id : String
  memories : List Memory
  count : Nat
  deriving DecidableEq, Repr

/-- From services/api.ts `getMemories`: the query parameters sent with the
GET request — `limit` always, `query` only when truthy (non-empty). -/
def getMemoriesParams (query : Option String) (limit : Nat) : List (String × String) :=
  [("limit", toString limit)] ++
    (match query with
     | some q => if q = "" then [] else [("query", q)]
     | none => [])

/-- From services/api.ts `getMemories`: the request path
`/api/memory/$\x7buserId\x7d` (URI-encoding of the id left as the identity on
the abstract path component). -/
def getMemoriesUrl (userId : String) : String :=
  "/api/memory/" ++ userId

/-- From services/api.ts `getMemories`: issues a GET for the user's memories;
the server's behaviour is abstracted as a function from (path, params) to a
response. -/
def getMemories (server : String → List (String × String) → SearchMemoryResponse)
    (userId : String) (query : Option String) (limit : Nat) : SearchMemoryResponse :=
  server (getMemoriesUrl userId) (getMemoriesParams query limit)

/-- From services/api.ts `searchMemories`: defined by delegation,
`return memoryApi.getMemories(userId, query, limit)`. -/
def searchMemories (server : String → List (String × String) → SearchMemoryResponse)
    (userId : String) (query : String) (limit : Nat) : SearchMemoryResponse :=
  getMemories server userId (some query) limit

/-- From services/api.ts: the default `limit` of `searchMemories` is 5. -/
def searchMemoriesDefaultLimit : Nat := 5

/-- From services/api.ts: the default `limit` of `getMemories` is 10. -/
def getMemoriesDefaultLimit : Nat := 10

/- ---------------------------------------------------------------------
Theorems
--------------------------------------------------------------------- -/

/-- The clamped weighted sum lies in [0, 1]. -/
theorem weightedScore_mem (a b : NormalizedEntry) (d : Domain) (appr : Bool) :
    0 ≤ weightedScore a b d appr ∧ weightedScore a b d appr ≤ 1 := by
  unfold weightedScore
  exact ⟨le_max_left _ _, max_le (by norm_num) (min_le_left _ _)⟩

/-- The gated score lies in [0, 1]. -/
theorem score_mem (a b : NormalizedEntry) (d : Domain) (appr : Bool) :
    0 ≤ score a b d appr ∧ score a b d appr ≤ 1 := by
  unfold score
  split_ifs
  · exact weightedScore_mem a b d appr
  · norm_num

/-- For every domain and risk flag, `0 < t_update ≤ t_merge`. -/
theorem thresholds_ordered (d : Domain) (hr : Bool) :
    0 < (thresholds d hr).1 ∧ (thresholds d hr).1 ≤ (thresholds d hr).2 := by
  cases d <;> cases hr <;> constructor <;> norm_num [thresholds]

/-- C1: for every pair of entries whose `subject_code` values differ, the
decision is APPEND with confidence exactly 0, regardless of dates,
attributes, or the `approximate_time`/`high_risk` flags — the identity
mismatch is a hard gate. -/
theorem identity_hard_gate (current newEntry : NormalizedEntry) (d : Domain)
    (approximate high_risk : Bool)
    (h : current.subject_code ≠ newEntry.subject_code) :
    decideEntry current newEntry d approximate high_risk = ⟨Action.APPEND, 0⟩ := by
  simp [decideEntry, h]

/-- Witness for C1 at concrete entries with different subject codes. -/
theorem identity_hard_gate_w :
    ("11111" : String) ≠ "22222" ∧
    decideEntry ⟨"11111", [("dose", "5 mg")], 0, none⟩ ⟨"22222", [("dose", "5 mg")], 0, none⟩
      Domain.medication true true = ⟨Action.APPEND, 0⟩ :=
  ⟨by decide, identity_hard_gate _ _ _ _ _ (by decide)⟩

/-- C2: the classification is determined by comparing the returned confidence
to the selected thresholds (MERGE iff `score ≥ t_merge`, UPDATE iff
`t_update ≤ score < t_merge`, APPEND iff `score < t_update`), the
medication/normal-risk thresholds are (0.5, 0.75), and the decision step is
total — it always yields exactly one of MERGE, UPDATE, APPEND. -/
theorem decision_matches_thresholds (current newEntry : NormalizedEntry) (d : Domain)
    (approximate high_risk : Bool) :
    ((decideEntry current newEntry d approximate high_risk).action = Action.MERGE ↔
      (thresholds d high_risk).2 ≤ (decideEntry current newEntry d approximate high_risk).confidence) ∧
    ((decideEntry current newEntry d approximate high_risk).action = Action.UPDATE ↔
      ((thresholds d high_risk).1 ≤ (decideEntry current newEntry d approximate high_risk).confidence ∧
        (decideEntry current newEntry d approximate high_risk).confidence < (thresholds d high_risk).2)) ∧
    ((decideEntry current newEntry d approximate high_risk).action = Action.APPEND ↔
      (decideEntry current newEntry d approximate high_risk).confidence < (thresholds d high_risk).1) ∧
    thresholds Domain.medication false = (1 / 2, 3 / 4) ∧
    ((decideEntry current newEntry d approximate high_risk).action = Action.MERGE ∨
      (decideEntry current newEntry d approximate high_risk).action = Action.UPDATE ∨
      (decideEntry current newEntry d approximate high_risk).action = Action.APPEND) := by
  obtain ⟨hpos, hle⟩ := thresholds_ordered d high_risk
  simp only [decideEntry]
  split_ifs with h0 h1 h2
  · exact ⟨iff_of_false (by simp) (by intro hx; simp at hx; linarith),
      iff_of_false (by simp) (by rintro ⟨ha, _⟩; simp at ha; linarith),
      iff_of_true rfl (by simpa using hpos), rfl, Or.inr (Or.inr rfl)⟩
  · exact ⟨iff_of_true rfl h1,
      iff_of_false (by simp) (by rintro ⟨_, hb⟩; exact absurd h1 (not_le.mpr hb)),
      iff_of_false (by simp) (by intro hx; linarith),
      rfl, Or.inl rfl⟩
  · exact ⟨iff_of_false (by simp) h1,
      iff_of_true rfl ⟨h2, not_le.mp h1⟩,
      iff_of_false (by simp) (not_lt.mpr h2),
      rfl, Or.inr (Or.inl rfl)⟩
  · exact ⟨iff_of_false (by simp) h1,
      iff_of_false (by simp) (fun hx => h2 hx.1),
      iff_of_true rfl (not_le.mp h2),
      rfl, Or.inr (Or.inr rfl)⟩

/-- C3: for every pair of entries and every combination of flags — including
zero-length intervals and open-ended intervals — the returned confidence lies
in the closed interval [0, 1]. -/
theorem confidence_in_unit_interval (current newEntry : NormalizedEntry) (d : Domain)
    (approximate high_risk : Bool) :
    0 ≤ (decideEntry current newEntry d approximate high_risk).confidence ∧
    (decideEntry current newEntry d approximate high_risk).confidence ≤ 1 := by
  simp only [decideEntry]
  split_ifs
  · exact ⟨le_refl 0, zero_le_one⟩
  · exact score_mem current newEntry d approximate
  · exact score_mem current newEntry d approximate
  · exact score_mem current newEntry d approximate

/-- C4: raising `high_risk` from false to true never decreases either
threshold, for both domains. -/
theorem thresholds_monotone_in_risk (d : Domain) :
    (thresholds d false).1 ≤ (thresholds d true).1 ∧
    (thresholds d false).2 ≤ (thresholds d true).2 := by
  cases d <;> constructor <;> norm_num [thresholds]

/-- C5: `normalize` fails with a `ValidationError` identifying the offending
field whenever a required field (`subject_code`, `interval_start`) is missing
or a present `interval_end` precedes `interval_start`; and adding extra
attributes to a successfully normalized entry never makes normalization
fail. -/
theorem normalize_validation (e : RawEntry) :
    (e.subject_code = none →
      normalize e = .error ⟨"subject_code", "missing required field"⟩) ∧
    (∀ c, e.subject_code = some c → e.interval_start = none →
      normalize e = .error ⟨"interval_start", "missing required field"⟩) ∧
    (∀ c s en, e.subject_code = some c → e.interval_start = some s →
      e.interval_end = some en → en < s →
      normalize e = .error ⟨"interval_end", "interval_end precedes interval_start"⟩) ∧
    (∀ extra, (normalize e).isOk = true →
      (normalize { e with attributes := e.attributes ++ extra }).isOk = true) := by
  obtain ⟨sc, attrs, is, ie⟩ := e
  refine ⟨?_, ?_, ?_, ?_⟩
  · rintro rfl; rfl
  · rintro c rfl rfl; rfl
  · rintro c s en rfl rfl rfl hlt
    simp [normalize, if_pos hlt]
  · intro extra hok
    cases sc with
    | none => simp [normalize, Except.isOk, Except.toBool] at hok
    | some c =>
      cases is with
      | none => simp [normalize, Except.isOk, Except.toBool] at hok
      | some s =>
        cases ie with
        | none => simp [normalize, Except.isOk, Except.toBool]
        | some en =>
          simp only [normalize] at hok ⊢
          split_ifs at hok ⊢ <;> simp_all [Except.isOk, Except.toBool]

/-- Witness for C5: the three rejection cases at concrete raw entries, and
forward compatibility of a concrete valid entry under an extra attribute. -/
theorem normalize_validation_w :
    normalize ⟨none, [], some 0, none⟩ = .error ⟨"subject_code", "missing required field"⟩ ∧
    normalize ⟨some "11111", [], none, none⟩ = .error ⟨"interval_start", "missing required field"⟩ ∧
    normalize ⟨some "11111", [], some 5, some 3⟩ =
      .error ⟨"interval_end", "interval_end precedes interval_start"⟩ ∧
    (normalize ⟨some "11111", [] ++ [("dose", "5 mg")], some 0, none⟩).isOk = true :=
  ⟨(normalize_validation _).1 rfl,
   (normalize_validation _).2.1 "11111" rfl rfl,
   (normalize_validation _).2.2.1 "11111" 5 3 rfl rfl rfl (by decide),
   (normalize_validation ⟨some "11111", [], some 0, none⟩).2.2.2 [("dose", "5 mg")] (by decide)⟩

/-- Appending a record whose key is `k` makes it the latest version for `k`. -/
theorem lastFor_append_self (L : List FactRecord) (k : String) (r : FactRecord)
    (h : r.entity_key = k) : lastFor (L ++ [r]) k = some r := by
  simp [lastFor, chainOf, List.filter_append, h, List.getLast?_concat]

/-- After a commit for key `k`, the latest version for `k` carries the
committed payload and a commit timestamp already at or above the clock. -/
theorem lastFor_after_commit (L : List FactRecord) (k : String) (e : NormalizedEntry)
    (kind : Action) (clock : Int) :
    ∃ r, lastFor (commit L k e kind clock) k = some r ∧ r.payload = e ∧
      max clock r.commit_ts = r.commit_ts := by
  unfold commit
  cases h : lastFor L k with
  | none =>
    exact ⟨⟨k, e, 0, clock, kind⟩, lastFor_append_self L k _ rfl, rfl, max_self clock⟩
  | some last =>
    dsimp only
    split_ifs with hc
    · exact ⟨last, h, hc.1, hc.2⟩
    · refine ⟨⟨k, e, last.version_id + 1, max clock last.commit_ts, kind⟩,
        lastFor_append_self L k _ rfl, rfl, ?_⟩
      rw [← max_assoc, max_self]

/-- C6: ledger commit is idempotent on identical input — committing the same
`(entity_key, normalized_entry)` pair twice at the same clock produces the
same ledger as committing it once (the duplicate is deduplicated, no second
version is created). -/
theorem commit_idempotent (L : List FactRecord) (k : String) (e : NormalizedEntry)
    (kind : Action) (clock : Int) :
    commit (commit L k e kind clock) k e kind clock = commit L k e kind clock := by
  obtain ⟨r, hr, hpay, hts⟩ := lastFor_after_commit L k e kind clock
  conv_lhs => rw [commit.eq_def, hr]
  simp [hpay, hts]

/-- C7: every ledger commit is append-only (the result is the old ledger, or
the old ledger with exactly one new row) and preserves, for every
`entity_key`, the invariant that `version_id` is strictly increasing and
`commit_ts` non-decreasing along the version chain. -/
theorem ledger_monotone (L : List FactRecord) (k : String) (e : NormalizedEntry)
    (kind : Action) (clock : Int) (q : String) (h : ChainOk L q) :
    ChainOk (commit L k e kind clock) q ∧
    (commit L k e kind clock = L ∨ ∃ r, commit L k e kind clock = L ++ [r]) := by
  have key : ∀ r : FactRecord, r.entity_key = k →
      (∀ last, lastFor L k = some last →
        last.version_id < r.version_id ∧ last.commit_ts ≤ r.commit_ts) →
      ChainOk (L ++ [r]) q := by
    intro r hrk hrel
    by_cases hq : q = k
    · subst hq
      have hchain : chainOf (L ++ [r]) q = chainOf L q ++ [r] := by
        simp [chainOf, List.filter_append, hrk]
      rw [ChainOk, hchain, List.chain'_append]
      refine ⟨h, List.chain'_singleton r, ?_⟩
      intro x hx y hy
      simp only [List.head?_cons, Option.mem_def, Option.some.injEq] at hy
      subst hy
      exact hrel x hx
    · have hchain : chainOf (L ++ [r]) q = chainOf L q := by
        have : (r.entity_key == q) = false := by
          simp [hrk]
          exact fun hk => hq hk.symm
        simp [chainOf, List.filter_append, this]
      rw [ChainOk, hchain]
      exact h
  unfold commit
  cases hl : lastFor L k with
  | none =>
    refine ⟨key _ rfl ?_, Or.inr ⟨_, rfl⟩⟩
    intro last hlast
    rw [hl] at hlast
    exact absurd hlast (by simp)
  | some last =>
    dsimp only
    split_ifs with hc
    · exact ⟨h, Or.inl rfl⟩
    · refine ⟨key _ rfl ?_, Or.inr ⟨_, rfl⟩⟩
      intro l' hl'
      rw [hl] at hl'
      cases hl'
      exact ⟨Nat.lt_succ_self _, le_max_right _ _⟩

/-- Witness for C7: the invariant holds on the empty ledger and is preserved
by a concrete commit. -/
theorem ledger_monotone_w :
    ChainOk ([] : List FactRecord) "u1:11111" ∧
    ChainOk (commit [] "u1:11111" ⟨"11111", [], 0, none⟩ Action.APPEND 0) "u1:11111" :=
  ⟨by decide,
   (ledger_monotone [] "u1:11111" ⟨"11111", [], 0, none⟩ Action.APPEND 0 "u1:11111"
      (by decide)).1⟩

/-- In the claim's sense, a confidence is "near a threshold" when it is within
0.05 of `t_update` or `t_merge`. -/
def nearThreshold (c : ℚ) (t : ℚ × ℚ) : Prop :=
  |c - t.1| ≤ 1 / 20 ∨ |c - t.2| ≤ 1 / 20

/-- C8 counterexample: at confidence 0.3 the frontend surfaces the
human-review advisory although 0.3 is not within 0.05 of any decision
threshold of any domain/risk combination — the advisory is not gated on
threshold margin. -/
theorem advisory_margin_cex :
    showReviewAdvisory ⟨Action.APPEND, 3 / 10⟩ = true ∧
    ¬ nearThreshold (3 / 10) (thresholds Domain.medication false) ∧
    ¬ nearThreshold (3 / 10) (thresholds Domain.medication true) ∧
    ¬ nearThreshold (3 / 10) (thresholds Domain.symptom false) ∧
    ¬ nearThreshold (3 / 10) (thresholds Domain.symptom true) := by
  refine ⟨by simp only [showReviewAdvisory, decide_eq_true_eq]; norm_num, ?_, ?_, ?_, ?_⟩ <;>
    · rintro (habs | habs) <;> revert habs <;> norm_num [thresholds, abs_le]

/-- C8 (amended): the frontend surfaces the non-blocking human-review
advisory exactly when the returned confidence is below 0.6, and the advisory
never changes the displayed classification. -/
theorem advisory_iff_low_confidence (r : UIDecisionResult) :
    (showReviewAdvisory r = true ↔ r.confidence < 3 / 5) ∧
    displayedAction r = r.action := by
  constructor
  · simp [showReviewAdvisory]
  · rfl

/-- C9: in every request built by `handleDecision`, the `start` field is the
user-entered date string with `'T00:00:00Z'` appended, and the `end` field is
present (likewise suffixed) exactly when the user-entered end string is
non-empty — an empty end string maps to an absent interval end. -/
theorem request_entry_dates (e : MedicalEntryForm) :
    (buildRequestEntry e).start = e.start ++ "T00:00:00Z" ∧
    ((buildRequestEntry e).«end» = none ↔ e.«end» = "") ∧
    ((buildRequestEntry e).«end» = some (e.«end» ++ "T00:00:00Z") ↔ e.«end» ≠ "") := by
  refine ⟨rfl, ?_, ?_⟩ <;> by_cases h : e.«end» = "" <;> simp [buildRequestEntry, h]

/-- C10: `searchMemories` returns exactly the result of `getMemories` on the
same user, query and limit — the two differ only in their default limits
(5 versus 10). -/
theorem searchMemories_eq_getMemories
    (server : String → List (String × String) → SearchMemoryResponse)
    (userId query : String) (limit : Nat) :
    searchMemories server userId query limit = getMemories server userId (some query) limit ∧
    searchMemoriesDefaultLimit = 5 ∧ getMemoriesDefaultLimit = 10 :=
  ⟨rfl, rfl, rfl⟩

end MemoryX
